import Mathlib

/-!
Verification development for the OCR front-end in `src/app.py`
(repository `Lakshay3766/ocr_app`).

The app is a single linear Streamlit script.  We embed it shallowly:

* external library calls (pytesseract, langdetect, the Azure and Google
  vision clients, and the UTF-8 decoding of the uploaded ground-truth
  file) are an `Oracle` of functions returning `Except Err String`;
* the UI state (selectbox, checkboxes, credential text inputs, uploads)
  is a `Config`;
* the processing block (`app.py` lines 133-194) is a pure function from
  `Config` and `Oracle` to a trace of displayed widgets and of the
  external/backend calls it performs, together with an `Except Err Unit`
  outcome for the `try:` body;
* `difflib.SequenceMatcher(None, a, b).ratio()` (the similarity metric
  used by `calculate_similarity`) is embedded from CPython's difflib,
  specialised to `isjunk = None` and `autojunk = True` exactly as the
  call site instantiates it.
-/

set_option autoImplicit false

namespace Difflib

/-- A matching block `(a, b, size)`, difflib's `Match` namedtuple:
`a[a:a+size] == b[b:b+size]`. -/
structure MBlock where
  a : Nat
  b : Nat
  size : Nat
deriving DecidableEq

/-- Indexing `a[i]` for the sequence-matcher loops.  All reads performed
by the algorithm are in bounds, so the default is never produced. -/
def lget (l : List Char) (i : Nat) : Char :=
  l.getD i ' '

/-- `b2j` before the autojunk pruning: for each element of `b`, the
ascending list of positions at which it occurs (difflib `__chain_b`,
first loop: `for i, elt in enumerate(b): b2j.setdefault(elt, []).append(i)`). -/
def b2jBase (b : List Char) : Char → List Nat :=
  b.enum.foldl (fun m p => fun c => if c = p.2 then m c ++ [p.1] else m c) (fun _ => [])

/-- `b2j` after autojunk pruning (difflib `__chain_b`, second part):
when `len(b) >= 200`, elements occurring more than `len(b) // 100 + 1`
times are popular and are deleted from `b2j`. -/
def b2j (b : List Char) : Char → List Nat :=
  let base := b2jBase b
  if 200 ≤ b.length then
    fun c => if b.length / 100 + 1 < (base c).length then [] else base c
  else
    base

/-- The b-junk test.  The app constructs `SequenceMatcher(None, ...)`,
so `isjunk is None` and the junk set `bjunk` is empty. -/
def bjunkF : Char → Bool := fun _ => false

/-- `j2len.get(j - 1, 0)` with `Nat` keys: Python's key `-1` is never
present, so the lookup at `j = 0` defaults to `0`. -/
def dpGetPrev (m : Nat → Nat) : Nat → Nat
  | 0 => 0
  | j + 1 => m j

/-- Inner loop of `find_longest_match` over `b2j[a[i]]` (ascending
positions): `continue` below `blo`, `break` at or above `bhi`, otherwise
extend the diagonal run and remember the first strictly longer match. -/
def flmInner (blo bhi iIdx : Nat) (j2len : Nat → Nat) :
    List Nat → (Nat → Nat) → MBlock → (Nat → Nat) × MBlock
  | [], newj2len, best => (newj2len, best)
  | j :: js, newj2len, best =>
    if j < blo then
      flmInner blo bhi iIdx j2len js newj2len best
    else if bhi ≤ j then
      (newj2len, best)
    else
      let k := dpGetPrev j2len j + 1
      let newj2len1 := fun x => if x = j then k else newj2len x
      let best1 := if best.size < k then ⟨iIdx + 1 - k, j + 1 - k, k⟩ else best
      flmInner blo bhi iIdx j2len js newj2len1 best1

/-- Outer loop of `find_longest_match` over `i in range(alo, ahi)`,
threading the `j2len` table (`newj2len` becomes `j2len` of the next
iteration) and the best match found so far. -/
def flmOuter (a b : List Char) (blo bhi : Nat) :
    List Nat → (Nat → Nat) → MBlock → MBlock
  | [], _, best => best
  | i :: is, j2len, best =>
    let step := flmInner blo bhi i j2len (b2j b (lget a i)) (fun _ => 0) best
    flmOuter a b blo bhi is step.1 step.2

/-- First extension `while` loop of `find_longest_match`: extend the
match downwards over equal non-junk elements.  The loop decrements
`besti` each iteration and stops at `alo`, so `besti` iterations of fuel
are exact: if the fuel runs out then `besti = 0 ≤ alo` and the loop
condition is false anyway. -/
def extLo (a b : List Char) (alo blo : Nat) (junkB : Char → Bool) :
    Nat → MBlock → MBlock
  | 0, m => m
  | fuel + 1, m =>
    if alo < m.a ∧ blo < m.b ∧ junkB (lget b (m.b - 1)) = false ∧
        lget a (m.a - 1) = lget b (m.b - 1) then
      extLo a b alo blo junkB fuel ⟨m.a - 1, m.b - 1, m.size + 1⟩
    else
      m

/-- Second extension `while` loop: extend the match upwards over equal
non-junk elements.  Each iteration increments `size` while
`besti + size < ahi`, so `ahi - (besti + size)` iterations of fuel are
exact. -/
def extHi (a b : List Char) (ahi bhi : Nat) (junkB : Char → Bool) :
    Nat → MBlock → MBlock
  | 0, m => m
  | fuel + 1, m =>
    if m.a + m.size < ahi ∧ m.b + m.size < bhi ∧
        junkB (lget b (m.b + m.size)) = false ∧
        lget a (m.a + m.size) = lget b (m.b + m.size) then
      extHi a b ahi bhi junkB fuel ⟨m.a, m.b, m.size + 1⟩
    else
      m

/-- Third extension loop: like the first but over junk elements
(`isbjunk(...)` required true).  With `isjunk = None` the junk set is
empty, so this loop never fires; it is kept for faithfulness. -/
def extLoJunk (a b : List Char) (alo blo : Nat) (junkB : Char → Bool) :
    Nat → MBlock → MBlock
  | 0, m => m
  | fuel + 1, m =>
    if alo < m.a ∧ blo < m.b ∧ junkB (lget b (m.b - 1)) = true ∧
        lget a (m.a - 1) = lget b (m.b - 1) then
      extLoJunk a b alo blo junkB fuel ⟨m.a - 1, m.b - 1, m.size + 1⟩
    else
      m

/-- Fourth extension loop: like the second but over junk elements.
Never fires for `isjunk = None`; kept for faithfulness. -/
def extHiJunk (a b : List Char) (ahi bhi : Nat) (junkB : Char → Bool) :
    Nat → MBlock → MBlock
  | 0, m => m
  | fuel + 1, m =>
    if m.a + m.size < ahi ∧ m.b + m.size < bhi ∧
        junkB (lget b (m.b + m.size)) = true ∧
        lget a (m.a + m.size) = lget b (m.b + m.size) then
      extHiJunk a b ahi bhi junkB fuel ⟨m.a, m.b, m.size + 1⟩
    else
      m

/-- difflib `SequenceMatcher.find_longest_match(alo, ahi, blo, bhi)`,
for `isjunk = None`: dynamic-programming sweep, then the four extension
loops. -/
def find_longest_match (a b : List Char) (alo ahi blo bhi : Nat) : MBlock :=
  let best0 := flmOuter a b blo bhi (List.range' alo (ahi - alo)) (fun _ => 0) ⟨alo, blo, 0⟩
  let best1 := extLo a b alo blo bjunkF best0.a best0
  let best2 := extHi a b ahi bhi bjunkF (ahi - (best1.a + best1.size)) best1
  let best3 := extLoJunk a b alo blo bjunkF best2.a best2
  extHiJunk a b ahi bhi bjunkF (ahi - (best3.a + best3.size)) best3

/-- The recursive region decomposition of `get_matching_blocks` (the
source uses an explicit LIFO queue and sorts afterwards; the recursion
yields the same blocks already in sorted order, and the sort below is
still applied as in the source).  The fuel dominates `ahi - alo`: each
recursive call is on a region whose `a`-extent is strictly smaller, so
`a.length + 1` initial fuel is never exhausted. -/
def gmbAux (a b : List Char) : Nat → Nat → Nat → Nat → Nat → List MBlock
  | 0, _, _, _, _ => []
  | fuel + 1, alo, ahi, blo, bhi =>
    let m := find_longest_match a b alo ahi blo bhi
    if m.size ≠ 0 then
      (if alo < m.a ∧ blo < m.b then gmbAux a b fuel alo m.a blo m.b else []) ++
      [m] ++
      (if m.a + m.size < ahi ∧ m.b + m.size < bhi then
        gmbAux a b fuel (m.a + m.size) ahi (m.b + m.size) bhi
      else [])
    else
      []

/-- Lexicographic order on matching blocks, the order of Python's
`matching_blocks.sort()` on `(i, j, k)` triples. -/
def mbLE (x y : MBlock) : Bool :=
  if x.a < y.a then true
  else if y.a < x.a then false
  else if x.b < y.b then true
  else if y.b < x.b then false
  else decide (x.size ≤ y.size)

/-- Insert into a sorted list of blocks. -/
def insertMB (x : MBlock) : List MBlock → List MBlock
  | [] => [x]
  | y :: ys => if mbLE x y then x :: y :: ys else y :: insertMB x ys

/-- `matching_blocks.sort()`. -/
def sortMB (l : List MBlock) : List MBlock :=
  l.foldr insertMB []

/-- The adjacent-block merging pass of `get_matching_blocks`
(`non_adjacent` accumulation), threading the current `(i1, j1, k1)`. -/
def mergeMB : List MBlock → Nat → Nat → Nat → List MBlock
  | [], i1, j1, k1 => if k1 ≠ 0 then [⟨i1, j1, k1⟩] else []
  | m :: rest, i1, j1, k1 =>
    if i1 + k1 = m.a ∧ j1 + k1 = m.b then
      mergeMB rest i1 j1 (k1 + m.size)
    else
      (if k1 ≠ 0 then [⟨i1, j1, k1⟩] else []) ++ mergeMB rest m.a m.b m.size

/-- difflib `SequenceMatcher.get_matching_blocks()`: decompose, sort,
merge adjacent blocks, and append the `(len(a), len(b), 0)` sentinel. -/
def get_matching_blocks (a b : List Char) : List MBlock :=
  let blocks := sortMB (gmbAux a b (a.length + 1) 0 a.length 0 b.length)
  mergeMB blocks 0 0 0 ++ [⟨a.length, b.length, 0⟩]

/-- Invariant of the `j2len` tables of `find_longest_match`: a nonzero
entry sits at a key in `[blo, bhi)` and records a diagonal run of at
most `key + 1 - blo` and at most `s` elements, `s` counting the outer
iterations performed. -/
def J2Inv (blo bhi s : Nat) (f : Nat → Nat) : Prop :=
  ∀ x, f x ≠ 0 → blo ≤ x ∧ x < bhi ∧ f x ≤ x + 1 - blo ∧ f x ≤ s

/-- Invariant of the best match threaded through `find_longest_match`:
a size-zero match still points at `(alo, blo)`, and a nonzero match
lies inside `[alo, bound) × [blo, bhi)`. -/
def BestInv (alo blo bhi bound : Nat) (m : MBlock) : Prop :=
  (m.size = 0 → m.a = alo ∧ m.b = blo) ∧
  (m.size ≠ 0 → alo ≤ m.a ∧ blo ≤ m.b ∧ m.a + m.size ≤ bound ∧ m.b + m.size ≤ bhi)

/-- `M`: the total size of the matching blocks,
`sum(triple[-1] for triple in self.get_matching_blocks())`. -/
def matchesTotal (a b : List Char) : Nat :=
  ((get_matching_blocks a b).map MBlock.size).sum

/-- difflib `_calculate_ratio(matches, length)`:
`2.0 * matches / length` when `length` is nonzero, else `1.0`. -/
def calcRatio (ms length : Nat) : ℚ :=
  if length ≠ 0 then 2 * (ms : ℚ) / (length : ℚ) else 1

/-- difflib `SequenceMatcher.ratio()`. -/
def ratio (a b : List Char) : ℚ :=
  calcRatio (matchesTotal a b) (a.length + b.length)

/-- `app.py` lines 61-63: `calculate_similarity(text1, text2)` returns
`SequenceMatcher(None, text1, text2).ratio()`. -/
def calculate_similarity (text1 text2 : String) : ℚ :=
  ratio text1.data text2.data

end Difflib

namespace OcrApp

/-- `collections.Counter` key order: first-occurrence order of the
elements (dict insertion order), built exactly as `Counter` builds its
underlying dict. -/
def counterKeys (l : List String) : List String :=
  l.foldl (fun ks x => if x ∈ ks then ks else ks ++ [x]) []

/-- One step of taking the maximum by count over the counter items in
key order.  `most_common(1)` is `heapq.nlargest(1, items, key=count)`,
i.e. `max` over the items in iteration order, which keeps the earlier
item on ties, exactly as the strict comparison below does. -/
def pickStep (l : List String) (best : Option String) (x : String) : Option String :=
  match best with
  | none => some x
  | some b => if l.count b < l.count x then some x else some b

/-- `Counter(l).most_common(1)` restricted to its only entry:
`none` exactly when `l` is empty. -/
def mostCommon1 (l : List String) : Option String :=
  (counterKeys l).foldl (pickStep l) none

/-- The selectbox at `app.py` line 28: exactly the three options
`"Automatic Detection"`, `"English"`, `"Hindi"`. -/
inductive LangOption
  | auto
  | english
  | hindi
deriving DecidableEq

/-- The UI inputs of one run: the language selectbox, the four service
checkboxes (lines 32-35), the Azure credential text inputs (lines
44-45), whether the Google client construction succeeded (lines 52-56),
and whether a ground-truth file was uploaded (line 41). -/
structure Config where
  language_option : LangOption
  use_tesseract : Bool
  use_azure : Bool
  use_google : Bool
  use_combined : Bool
  azure_key : String
  azure_endpoint : String
  google_creds : Bool
  has_ground_truth : Bool
deriving DecidableEq

/-- A Python exception value, as far as the script can observe it. -/
inductive Err
  | pyExc (msg : String)
  | indexError
  | nameError (var : String)
deriving DecidableEq

/-- The external world for one uploaded image: every call the script
makes into a third-party library, with its outcome (`error` models the
call raising).  `image_to_string` is `pytesseract.image_to_string` as a
function of the `lang` argument; `langdetect` is `langdetect.detect`;
`azure_read` / `google_read` are the whole credentialed cloud-OCR call
sequences of `get_azure_text` / `get_google_text`; and
`decode_ground_truth` is `uploaded_text.read().decode("utf-8")`. -/
structure Oracle where
  image_to_string : String → Except Err String
  langdetect : String → Except Err String
  azure_read : Except Err String
  google_read : Except Err String
  decode_ground_truth : Except Err String

/-- A displayed Streamlit output.  `accuracy label p` models
`st.write(f"{label} Accuracy: {sim * 100:.2f}%")`, carrying the exact
percentage `sim * 100` (the two-decimal formatting is not modelled). -/
inductive Widget
  | textArea (label text : String)
  | accuracy (label : String) (percent : ℚ)
  | errorBox (text : String)
deriving DecidableEq

/-- A call the processing block performs, for stating which backends
and detections a run invokes.  `pytessCall` is the preliminary
`pytesseract.image_to_string(image, lang='hin+eng')` at line 136;
`detectAttempt` is the `detect` attempt inside `detect_language`;
`tesseractCall` / `azureCall` / `googleCall` are the three backend
invocations at lines 148 / 154 / 161; `combineCall` is
`combine_ocr_results(ocr_texts)` at line 168 with its argument list. -/
inductive Event
  | pytessCall (lang : String)
  | detectAttempt (text : String)
  | tesseractCall (lang : String)
  | azureCall
  | googleCall
  | combineCall (args : List String)
deriving DecidableEq

/-- The displayed widgets and performed calls of a (partial) run. -/
structure Trace where
  widgets : List Widget
  events : List Event
deriving DecidableEq

/-- The local state of the processing block: its trace so far, the
Python locals `tesseract_text` / `azure_text` / `google_text` /
`combined_result` (`none` = unbound, reading it raises `NameError`),
and the list `ocr_texts`. -/
structure FlowSt where
  tr : Trace
  tesseract_text : Option String
  azure_text : Option String
  google_text : Option String
  combined_result : Option String
  ocr_texts : List String
deriving DecidableEq

/-- The state at entry of the `try:` block. -/
def initSt : FlowSt :=
  ⟨⟨[], []⟩, none, none, none, none, []⟩

/-- Display a widget. -/
def emitW (s : FlowSt) (w : Widget) : FlowSt :=
  { s with tr := { s.tr with widgets := s.tr.widgets ++ [w] } }

/-- Record an external call. -/
def emitE (s : FlowSt) (e : Event) : FlowSt :=
  { s with tr := { s.tr with events := s.tr.events ++ [e] } }

/-- Sequencing inside the `try:` block: a raised exception aborts the
rest of the block. -/
def andThen (r : FlowSt × Except Err Unit) (f : FlowSt → FlowSt × Except Err Unit) :
    FlowSt × Except Err Unit :=
  match r with
  | (s, Except.ok _) => f s
  | (s, Except.error e) => (s, Except.error e)

/-- Line 46-49: `computervision_client` is constructed iff both the
subscription key and the endpoint are non-empty strings. -/
def azureClientSet (cfg : Config) : Bool :=
  !(cfg.azure_key = "") && !(cfg.azure_endpoint = "")

/-- Lines 65-66: `get_tesseract_text(image, lang)` is
`pytesseract.image_to_string(image, lang=lang)`. -/
def get_tesseract_text (ora : Oracle) (lang : String) : Except Err String :=
  ora.image_to_string lang

/-- Lines 68-87: `get_azure_text` returns the sentinel string when no
client is configured, otherwise performs the read-and-poll call
sequence. -/
def get_azure_text (cfg : Config) (ora : Oracle) : Except Err String :=
  if azureClientSet cfg then ora.azure_read
  else Except.ok "Azure credentials are not set."

/-- Lines 89-96: `get_google_text` returns the sentinel string when the
client construction failed, otherwise calls `text_detection`. -/
def get_google_text (cfg : Config) (ora : Oracle) : Except Err String :=
  if cfg.google_creds then ora.google_read
  else Except.ok "Google Cloud Vision API credentials are not set."

/-- Lines 98-102: `detect_language` returns `detect(text)`, and
`"unknown"` when `detect` raises anything (bare `except:`).  It is a
total `String`-valued function: it never raises. -/
def detect_language (ora : Oracle) (text : String) : String :=
  match ora.langdetect text with
  | Except.ok c => c
  | Except.error _ => "unknown"

/-- Lines 104-110: `map_language_code`. -/
def map_language_code (detected : String) : String :=
  if detected = "en" then "eng"
  else if detected = "hi" then "hin"
  else "eng"

/-- Lines 112-120: `combine_ocr_results` indexes
`Counter(results).most_common(1)[0][0]`; on an empty `results` the
`[0]` raises `IndexError`. -/
def combine_ocr_results (results : List String) : Except Err String :=
  match mostCommon1 results with
  | some r => Except.ok r
  | none => Except.error Err.indexError

/-- Lines 135-141: compute `lang_code`.  Under Automatic Detection a
preliminary `pytesseract.image_to_string(image, lang='hin+eng')` pass
feeds `detect_language`; the explicit options use no detection. -/
def langBlock (cfg : Config) (ora : Oracle) : FlowSt × Except Err String :=
  match cfg.language_option with
  | LangOption.auto =>
    match ora.image_to_string "hin+eng" with
    | Except.error e => (emitE initSt (Event.pytessCall "hin+eng"), Except.error e)
    | Except.ok prelim =>
      (emitE (emitE initSt (Event.pytessCall "hin+eng")) (Event.detectAttempt prelim),
       Except.ok (map_language_code (detect_language ora prelim)))
  | LangOption.english => (initSt, Except.ok "eng")
  | LangOption.hindi => (initSt, Except.ok "hin")

/-- Lines 146-150: the Tesseract branch. -/
def tessBlock (cfg : Config) (ora : Oracle) (lang_code : String) (s : FlowSt) :
    FlowSt × Except Err Unit :=
  if cfg.use_tesseract then
    match get_tesseract_text ora lang_code with
    | Except.error e => (emitE s (Event.tesseractCall lang_code), Except.error e)
    | Except.ok t =>
      (emitW (emitE { s with tesseract_text := some t, ocr_texts := s.ocr_texts ++ [t] }
          (Event.tesseractCall lang_code))
        (Widget.textArea "Tesseract OCR Result" t),
       Except.ok ())
  else (s, Except.ok ())

/-- Lines 152-157: the Azure branch. -/
def azureBlock (cfg : Config) (ora : Oracle) (s : FlowSt) : FlowSt × Except Err Unit :=
  if cfg.use_azure then
    match get_azure_text cfg ora with
    | Except.error e => (emitE s Event.azureCall, Except.error e)
    | Except.ok t =>
      (emitW (emitE { s with azure_text := some t, ocr_texts := s.ocr_texts ++ [t] }
          Event.azureCall)
        (Widget.textArea "Azure OCR Result" t),
       Except.ok ())
  else (s, Except.ok ())

/-- Lines 159-164: the Google branch. -/
def googleBlock (cfg : Config) (ora : Oracle) (s : FlowSt) : FlowSt × Except Err Unit :=
  if cfg.use_google then
    match get_google_text cfg ora with
    | Except.error e => (emitE s Event.googleCall, Except.error e)
    | Except.ok t =>
      (emitW (emitE { s with google_text := some t, ocr_texts := s.ocr_texts ++ [t] }
          Event.googleCall)
        (Widget.textArea "Google OCR Result" t),
       Except.ok ())
  else (s, Except.ok ())

/-- Lines 166-169: `if use_combined and ocr_texts:` — the call to
`combine_ocr_results` is guarded by the list being non-empty. -/
def combinedBlock (cfg : Config) (s : FlowSt) : FlowSt × Except Err Unit :=
  if cfg.use_combined && !s.ocr_texts.isEmpty then
    match combine_ocr_results s.ocr_texts with
    | Except.error e => (emitE s (Event.combineCall s.ocr_texts), Except.error e)
    | Except.ok c =>
      (emitW (emitE { s with combined_result := some c } (Event.combineCall s.ocr_texts))
        (Widget.textArea "Combined OCR Result" c),
       Except.ok ())
  else (s, Except.ok ())

/-- One `if use_x:` accuracy line of lines 177-191: read the local
(raising `NameError` if it was never assigned), compute the similarity
against the ground truth and display it as a percentage. -/
def accLine (flag : Bool) (label : String) (var : String) (txt : Option String)
    (g : String) (s : FlowSt) : FlowSt × Except Err Unit :=
  if flag then
    match txt with
    | none => (s, Except.error (Err.nameError var))
    | some t =>
      (emitW s (Widget.accuracy label (100 * Difflib.calculate_similarity t g)),
       Except.ok ())
  else (s, Except.ok ())

/-- Lines 171-191: decode and display the ground truth, then one
accuracy line per selected service. -/
def groundTruthBlock (cfg : Config) (ora : Oracle) (s : FlowSt) : FlowSt × Except Err Unit :=
  if cfg.has_ground_truth then
    match ora.decode_ground_truth with
    | Except.error e => (s, Except.error e)
    | Except.ok g =>
      andThen (accLine cfg.use_tesseract "Tesseract" "tesseract_text"
          (emitW s (Widget.textArea "Ground Truth Text" g)).tesseract_text g
          (emitW s (Widget.textArea "Ground Truth Text" g)))
        (fun s1 =>
          andThen (accLine cfg.use_azure "Azure" "azure_text" s1.azure_text g s1)
            (fun s2 =>
              andThen (accLine cfg.use_google "Google" "google_text" s2.google_text g s2)
                (fun s3 =>
                  accLine cfg.use_combined "Combined" "combined_result"
                    s3.combined_result g s3)))
  else (s, Except.ok ())

/-- The body of the `try:` block, lines 135-191. -/
def processBody (cfg : Config) (ora : Oracle) : FlowSt × Except Err Unit :=
  match langBlock cfg ora with
  | (s, Except.error e) => (s, Except.error e)
  | (s, Except.ok lang_code) =>
    andThen (tessBlock cfg ora lang_code s) (fun s1 =>
      andThen (azureBlock cfg ora s1) (fun s2 =>
        andThen (googleBlock cfg ora s2) (fun s3 =>
          andThen (combinedBlock cfg s3) (fun s4 =>
            groundTruthBlock cfg ora s4))))

/-- The message `st.error` shows for an exception `e`:
`f"Error processing image: {e}"`. -/
def errMsg : Err → String
  | Err.pyExc m => m
  | Err.indexError => "list index out of range"
  | Err.nameError v => "name " ++ v ++ " is not defined"

/-- Lines 133-194, the whole `try: ... except Exception as e:` block:
the widgets displayed by the body, plus — exactly when the body raised —
one trailing `st.error` display.  No exception escapes. -/
def process (cfg : Config) (ora : Oracle) : List Widget :=
  match processBody cfg ora with
  | (s, Except.ok _) => s.tr.widgets
  | (s, Except.error e) =>
    s.tr.widgets ++ [Widget.errorBox ("Error processing image: " ++ errMsg e)]

/-- The events (external calls) of a run of the processing block. -/
def runEvents (cfg : Config) (ora : Oracle) : List Event :=
  (processBody cfg ora).1.tr.events

/-- The final `ocr_texts` list of a run of the processing block. -/
def runOcrTexts (cfg : Config) (ora : Oracle) : List String :=
  (processBody cfg ora).1.ocr_texts

/-- Is a widget the `st.error` display? -/
def isErrW : Widget → Bool
  | Widget.errorBox _ => true
  | _ => false

/-- Project an accuracy display to its label and percentage. -/
def accProj : Widget → Option (String × ℚ)
  | Widget.accuracy l p => some (l, p)
  | _ => none

/-- The accuracy displays of a widget list, in order. -/
def accuracyWidgets (ws : List Widget) : List (String × ℚ) :=
  ws.filterMap accProj

/-- The backend a call event invokes, if any. -/
def backendNameOf : Event → Option String
  | Event.tesseractCall _ => some "tesseract"
  | Event.azureCall => some "azure"
  | Event.googleCall => some "google"
  | _ => none

/-- The backends a run invokes, in order. -/
def backendNames (evs : List Event) : List String :=
  evs.filterMap backendNameOf

/-- Is an event a language-detection attempt? -/
def isDetect : Event → Bool
  | Event.detectAttempt _ => true
  | _ => false

/-- The texts fed to `langdetect.detect` during a run. -/
def detectTexts (evs : List Event) : List String :=
  evs.filterMap fun e =>
    match e with
    | Event.detectAttempt t => some t
    | _ => none

/-- The backends whose checkboxes are selected, in source order. -/
def selectedNames (cfg : Config) : List String :=
  (if cfg.use_tesseract then ["tesseract"] else []) ++
  (if cfg.use_azure then ["azure"] else []) ++
  (if cfg.use_google then ["google"] else [])

/-- The `lang_code` the spec's language branch produces, phrased for a
run where the preliminary pass returns `tess "hin+eng"`. -/
def specLangCode (cfg : Config) (ora : Oracle) (tess : String → String) : String :=
  match cfg.language_option with
  | LangOption.auto => map_language_code (detect_language ora (tess "hin+eng"))
  | LangOption.english => "eng"
  | LangOption.hindi => "hin"

/-- The `ocr_texts` list assembled from the selected backends, given
the text each backend returns. -/
def specTexts (cfg : Config) (ta az goo : String) : List String :=
  (if cfg.use_tesseract then [ta] else []) ++
  (if cfg.use_azure then [az] else []) ++
  (if cfg.use_google then [goo] else [])

/-- The accuracy displays the processing block produces when a ground
truth `g` is available: one per selected service, each carrying
`100 * calculate_similarity text g`. -/
def specAccuracies (cfg : Config) (ta az goo g : String) : List (String × ℚ) :=
  (if cfg.use_tesseract then
    [("Tesseract", 100 * Difflib.calculate_similarity ta g)] else []) ++
  (if cfg.use_azure then
    [("Azure", 100 * Difflib.calculate_similarity az g)] else []) ++
  (if cfg.use_google then
    [("Google", 100 * Difflib.calculate_similarity goo g)] else []) ++
  (if cfg.use_combined then
    [("Combined",
      100 * Difflib.calculate_similarity ((mostCommon1 (specTexts cfg ta az goo)).getD "") g)]
   else [])

/-- The full state an exception-free run ends in, phrased from the
backends' outputs: the widget sequence, the call sequence, the locals
and `ocr_texts`. -/
def specSt (cfg : Config) (ora : Oracle) (tess : String → String) (az goo g : String) :
    FlowSt :=
  { tr :=
    { widgets :=
        (if cfg.use_tesseract then
          [Widget.textArea "Tesseract OCR Result" (tess (specLangCode cfg ora tess))]
         else []) ++
        (if cfg.use_azure then [Widget.textArea "Azure OCR Result" az] else []) ++
        (if cfg.use_google then [Widget.textArea "Google OCR Result" goo] else []) ++
        (if cfg.use_combined ∧ specTexts cfg (tess (specLangCode cfg ora tess)) az goo ≠ [] then
          [Widget.textArea "Combined OCR Result"
            ((mostCommon1 (specTexts cfg (tess (specLangCode cfg ora tess)) az goo)).getD "")]
         else []) ++
        (if cfg.has_ground_truth then
          Widget.textArea "Ground Truth Text" g ::
            (specAccuracies cfg (tess (specLangCode cfg ora tess)) az goo g).map
              (fun p => Widget.accuracy p.1 p.2)
         else []),
      events :=
        (match cfg.language_option with
          | LangOption.auto => [Event.pytessCall "hin+eng", Event.detectAttempt (tess "hin+eng")]
          | _ => []) ++
        (if cfg.use_tesseract then [Event.tesseractCall (specLangCode cfg ora tess)] else []) ++
        (if cfg.use_azure then [Event.azureCall] else []) ++
        (if cfg.use_google then [Event.googleCall] else []) ++
        (if cfg.use_combined ∧ specTexts cfg (tess (specLangCode cfg ora tess)) az goo ≠ [] then
          [Event.combineCall (specTexts cfg (tess (specLangCode cfg ora tess)) az goo)]
         else []) },
    tesseract_text :=
      if cfg.use_tesseract then some (tess (specLangCode cfg ora tess)) else none,
    azure_text := if cfg.use_azure then some az else none,
    google_text := if cfg.use_google then some goo else none,
    combined_result :=
      if cfg.use_combined ∧ specTexts cfg (tess (specLangCode cfg ora tess)) az goo ≠ [] then
        some ((mostCommon1 (specTexts cfg (tess (specLangCode cfg ora tess)) az goo)).getD "")
      else none,
    ocr_texts := specTexts cfg (tess (specLangCode cfg ora tess)) az goo }

/-- `s2` extends `s` by widgets and events of the kinds the post-language
part of the processing block can produce: no `st.error` widget, no
detection attempt, and `combine_ocr_results` called only on non-empty
argument lists. -/
def traceExt (s s2 : FlowSt) : Prop :=
  ∃ ws evs,
    s2.tr.widgets = s.tr.widgets ++ ws ∧
    s2.tr.events = s.tr.events ++ evs ∧
    (∀ w ∈ ws, isErrW w = false) ∧
    (∀ e ∈ evs, isDetect e = false) ∧
    (∀ args, Event.combineCall args ∈ evs → args ≠ [])

/-- A fixed oracle for the concrete counterexample runs: every call
succeeds, the detector reports `"en"`. -/
def oraEn : Oracle :=
  ⟨fun _ => Except.ok "txt", fun _ => Except.ok "en",
   Except.ok "aztext", Except.ok "ggtext", Except.ok "gttext"⟩

/-- Automatic Detection with only the Tesseract checkbox. -/
def cfgAutoTess : Config :=
  ⟨LangOption.auto, true, false, false, false, "", "", false, false⟩

/-- Automatic Detection with only the Azure checkbox. -/
def cfgAutoAz : Config :=
  ⟨LangOption.auto, false, true, false, false, "k", "e", false, false⟩

/-- English with all three backend checkboxes. -/
def cfgThree : Config :=
  ⟨LangOption.english, true, true, true, false, "", "", false, false⟩

/-- English with no backend checkbox. -/
def cfgNone : Config :=
  ⟨LangOption.english, false, false, false, false, "", "", false, false⟩

/-- English, Tesseract and Combined selected, no ground truth. -/
def cfgTessComb : Config :=
  ⟨LangOption.english, true, false, false, true, "", "", false, false⟩

/-- English, Tesseract only, both cloud credentials present, with a
ground-truth upload. -/
def cfgAcc : Config :=
  ⟨LangOption.english, true, false, false, false, "k", "e", true, true⟩

/-- English, Azure selected without credentials, Combined selected,
with a ground-truth upload. -/
def cfgAzNoCreds : Config :=
  ⟨LangOption.english, false, true, false, true, "", "", false, true⟩

/-- The three backend callers of the source, as an enumeration. -/
inductive Backend
  | tesseract
  | azure
  | google
deriving DecidableEq

/-- A configuration that selects exactly one backend: English (no
detection pass), the one checkbox, no combining, credentials present
for both cloud services, no ground truth. -/
def onlyCfg : Backend → Config
  | Backend.tesseract => ⟨LangOption.english, true, false, false, false, "k", "e", true, false⟩
  | Backend.azure => ⟨LangOption.english, false, true, false, false, "k", "e", true, false⟩
  | Backend.google => ⟨LangOption.english, false, false, true, false, "k", "e", true, false⟩

/-- The result-widget label of each backend. -/
def backendLabel : Backend → String
  | Backend.tesseract => "Tesseract OCR Result"
  | Backend.azure => "Azure OCR Result"
  | Backend.google => "Google OCR Result"

/-- The trace name of each backend. -/
def backendName : Backend → String
  | Backend.tesseract => "tesseract"
  | Backend.azure => "azure"
  | Backend.google => "google"

/-- The string each backend recognises under `onlyCfg` (English, so
Tesseract runs with `lang_code = "eng"`). -/
def backendText (tess : String → String) (az goo : String) :
    Backend → String
  | Backend.tesseract => tess "eng"
  | Backend.azure => az
  | Backend.google => goo

end OcrApp

namespace MemeVideo

/-- Modelled from the spec: the meme-video generator application the
spec describes ("The first generates meme-style videos by overlaying
wrapped text and a watermark on every frame of an uploaded video
template, re-muxing the original audio track afterward") is not among
the files under `src/`; this section models that sentence directly. -/
structure Overlay where
  lines : List String
deriving DecidableEq

/-- Modelled from the spec: a video frame — opaque base content plus
the overlays burned into it. -/
structure Frame where
  base : Nat
  overlays : List Overlay
deriving DecidableEq

/-- Modelled from the spec: a video template — frames plus an audio
track (opaque). -/
structure Video where
  frames : List Frame
  audio : Nat
deriving DecidableEq

/-- Modelled from the spec: greedy word wrapping of the caption to a
line width (in characters). -/
def wrapWords (width : Nat) : List String → String → List String
  | [], cur => if cur = "" then [] else [cur]
  | w :: ws, cur =>
    if cur = "" then wrapWords width ws w
    else if cur.length + 1 + w.length ≤ width then
      wrapWords width ws (cur ++ " " ++ w)
    else
      cur :: wrapWords width ws w

/-- Modelled from the spec: wrap a caption into lines. -/
def wrapText (width : Nat) (caption : String) : List String :=
  wrapWords width (caption.splitOn " ") ""

/-- Modelled from the spec: burn the wrapped caption and the watermark
into one frame. -/
def overlayFrame (width : Nat) (caption watermark : String) (f : Frame) : Frame :=
  { f with overlays := f.overlays ++ [⟨wrapText width caption⟩, ⟨[watermark]⟩] }

/-- Modelled from the spec: the generator — overlay every frame, keep
the original audio track. -/
def generateMemeVideo (width : Nat) (caption watermark : String) (v : Video) : Video :=
  { frames := v.frames.map (overlayFrame width caption watermark), audio := v.audio }

end MemeVideo



/-! ## Lemmas about the `Counter(results).most_common(1)` vote -/

namespace OcrApp

theorem mem_keysFoldl (l : List String) :
    ∀ (init : List String) (x : String),
      (x ∈ l.foldl (fun ks y => if y ∈ ks then ks else ks ++ [y]) init ↔
        x ∈ init ∨ x ∈ l) := by
  induction l with
  | nil => simp
  | cons y l ih =>
    intro init x
    simp only [List.foldl_cons]
    rw [ih]
    by_cases h : y ∈ init
    · simp only [if_pos h, List.mem_cons]
      constructor
      · rintro (hx | hx)
        · exact Or.inl hx
        · exact Or.inr (Or.inr hx)
      · rintro (hx | hx | hx)
        · exact Or.inl hx
        · exact Or.inl (hx ▸ h)
        · exact Or.inr hx
    · simp only [if_neg h, List.mem_append, List.mem_singleton, List.mem_cons]
      tauto

theorem mem_counterKeys (l : List String) (x : String) :
    x ∈ counterKeys l ↔ x ∈ l := by
  unfold counterKeys
  rw [mem_keysFoldl]
  simp

theorem counterKeys_ne_nil (l : List String) (h : l ≠ []) : counterKeys l ≠ [] := by
  obtain ⟨y, l2, rfl⟩ := List.exists_cons_of_ne_nil h
  exact List.ne_nil_of_mem ((mem_counterKeys (y :: l2) y).2 (List.mem_cons_self y l2))

theorem pickFoldl_some (l : List String) :
    ∀ (ks : List String) (b : String),
      ∃ r, ks.foldl (pickStep l) (some b) = some r ∧
        (r = b ∨ r ∈ ks) ∧
        l.count b ≤ l.count r ∧
        (∀ x ∈ ks, l.count x ≤ l.count r) ∧
        (r = b ∨ ∃ ks1 ks2, ks = ks1 ++ r :: ks2 ∧ l.count b < l.count r ∧
          ∀ z ∈ ks1, l.count z < l.count r) := by
  intro ks
  induction ks with
  | nil =>
    intro b
    exact ⟨b, rfl, Or.inl rfl, le_refl _, by simp, Or.inl rfl⟩
  | cons x ks ih =>
    intro b
    simp only [List.foldl_cons, pickStep]
    by_cases h : l.count b < l.count x
    · rw [if_pos h]
      obtain ⟨r, hr, hmem, hle, hall, hfirst⟩ := ih x
      refine ⟨r, hr, ?_, ?_, ?_, ?_⟩
      · rcases hmem with h1 | h1
        · exact Or.inr (h1 ▸ List.mem_cons_self x ks)
        · exact Or.inr (List.mem_cons_of_mem x h1)
      · exact le_of_lt (lt_of_lt_of_le h hle)
      · intro y hy
        rcases List.mem_cons.1 hy with rfl | hy
        · exact hle
        · exact hall y hy
      · rcases hfirst with rfl | ⟨ks1, ks2, hsplit, hlt, hpre⟩
        · exact Or.inr ⟨[], ks, rfl, h, by simp⟩
        · refine Or.inr ⟨x :: ks1, ks2, by rw [hsplit]; rfl, lt_trans h hlt, ?_⟩
          intro z hz
          rcases List.mem_cons.1 hz with rfl | hz
          · exact hlt
          · exact hpre z hz
    · rw [if_neg h]
      obtain ⟨r, hr, hmem, hle, hall, hfirst⟩ := ih b
      refine ⟨r, hr, ?_, hle, ?_, ?_⟩
      · rcases hmem with h1 | h1
        · exact Or.inl h1
        · exact Or.inr (List.mem_cons_of_mem x h1)
      · intro y hy
        rcases List.mem_cons.1 hy with rfl | hy
        · exact le_trans (le_of_not_lt h) hle
        · exact hall y hy
      · rcases hfirst with rfl | ⟨ks1, ks2, hsplit, hlt, hpre⟩
        · exact Or.inl rfl
        · refine Or.inr ⟨x :: ks1, ks2, by rw [hsplit]; rfl, hlt, ?_⟩
          intro z hz
          rcases List.mem_cons.1 hz with rfl | hz
          · exact lt_of_le_of_lt (le_of_not_lt h) hlt
          · exact hpre z hz

theorem mostCommon1_spec (l : List String) (h : l ≠ []) :
    ∃ r, mostCommon1 l = some r ∧
      r ∈ l ∧
      (∀ x ∈ l, l.count x ≤ l.count r) ∧
      (∃ ks1 ks2, counterKeys l = ks1 ++ r :: ks2 ∧
        ∀ z ∈ ks1, l.count z < l.count r) := by
  obtain ⟨k, ks, hk⟩ := List.exists_cons_of_ne_nil (counterKeys_ne_nil l h)
  have hfold : mostCommon1 l = ks.foldl (pickStep l) (some k) := by
    unfold mostCommon1
    rw [hk]
    rfl
  obtain ⟨r, hr, hmem, hle, hall, hfirst⟩ := pickFoldl_some l ks k
  have hrkeys : r ∈ counterKeys l := by
    rw [hk]
    rcases hmem with rfl | h1
    · exact List.mem_cons_self r ks
    · exact List.mem_cons_of_mem k h1
  refine ⟨r, hfold.trans hr, (mem_counterKeys l r).1 hrkeys, ?_, ?_⟩
  · intro x hx
    have hxkeys : x ∈ counterKeys l := (mem_counterKeys l x).2 hx
    rw [hk] at hxkeys
    rcases List.mem_cons.1 hxkeys with rfl | hx2
    · exact hle
    · exact hall x hx2
  · rcases hfirst with rfl | ⟨ks1, ks2, hsplit, hlt, hpre⟩
    · exact ⟨[], ks, hk, by simp⟩
    · refine ⟨k :: ks1, ks2, by rw [hk, hsplit]; rfl, ?_⟩
      intro z hz
      rcases List.mem_cons.1 hz with rfl | hz
      · exact hlt
      · exact hpre z hz

theorem combine_ok_of_ne (l : List String) (h : l ≠ []) :
    combine_ocr_results l = Except.ok ((mostCommon1 l).getD "") := by
  obtain ⟨r, hr, _, _, _⟩ := mostCommon1_spec l h
  unfold combine_ocr_results
  rw [hr]
  rfl

end OcrApp

/-! ## Characterisation of an exception-free run -/

namespace OcrApp

set_option maxHeartbeats 2000000 in
theorem run_spec (cfg : Config) (ora : Oracle) (tess : String → String) (az goo g : String)
    (htess : ∀ l, ora.image_to_string l = Except.ok (tess l))
    (haz : get_azure_text cfg ora = Except.ok az)
    (hgo : get_google_text cfg ora = Except.ok goo)
    (hdec : cfg.has_ground_truth = true → ora.decode_ground_truth = Except.ok g)
    (hcomb : cfg.use_combined = true →
      (cfg.use_tesseract || cfg.use_azure || cfg.use_google) = true) :
    processBody cfg ora = (specSt cfg ora tess az goo g, Except.ok ()) := by
  obtain ⟨lo, ut, ua, ug, uc, ak, ae, gc, hg⟩ := cfg
  cases lo <;> cases ut <;> cases ua <;> cases ug <;> cases uc <;> cases hg <;>
    simp_all [processBody, langBlock, tessBlock, azureBlock, googleBlock, combinedBlock,
      groundTruthBlock, accLine, andThen, emitW, emitE, initSt, get_tesseract_text,
      specSt, specLangCode, specTexts, specAccuracies, combine_ok_of_ne]

end OcrApp

/-! ## Frame lemmas: what each block can add to the trace -/

namespace OcrApp

theorem traceExt_refl (s : FlowSt) : traceExt s s :=
  ⟨[], [], by simp, by simp, by simp, by simp, by simp⟩

theorem traceExt_trans {s1 s2 s3 : FlowSt} (h1 : traceExt s1 s2) (h2 : traceExt s2 s3) :
    traceExt s1 s3 := by
  obtain ⟨ws1, evs1, hw1, he1, hnw1, hnd1, hnc1⟩ := h1
  obtain ⟨ws2, evs2, hw2, he2, hnw2, hnd2, hnc2⟩ := h2
  refine ⟨ws1 ++ ws2, evs1 ++ evs2, ?_, ?_, ?_, ?_, ?_⟩
  · rw [hw2, hw1, List.append_assoc]
  · rw [he2, he1, List.append_assoc]
  · intro w hw
    rcases List.mem_append.1 hw with h | h
    · exact hnw1 w h
    · exact hnw2 w h
  · intro e he
    rcases List.mem_append.1 he with h | h
    · exact hnd1 e h
    · exact hnd2 e h
  · intro args hargs
    rcases List.mem_append.1 hargs with h | h
    · exact hnc1 args h
    · exact hnc2 args h

theorem andThen_ext {s : FlowSt} {r : FlowSt × Except Err Unit}
    {f : FlowSt → FlowSt × Except Err Unit}
    (h1 : traceExt s r.1) (h2 : ∀ s2, traceExt s2 (f s2).1) :
    traceExt s (andThen r f).1 := by
  rcases r with ⟨s1, res⟩
  cases res with
  | ok _ => exact traceExt_trans h1 (h2 s1)
  | error e => exact h1

theorem tessBlock_ext (cfg : Config) (ora : Oracle) (lc : String) (s : FlowSt) :
    traceExt s (tessBlock cfg ora lc s).1 := by
  unfold tessBlock
  cases cfg.use_tesseract
  · exact traceExt_refl s
  · cases hres : get_tesseract_text ora lc with
    | error e =>
      exact ⟨[], [Event.tesseractCall lc], by simp [emitE], by simp [emitE], by simp,
        by simp [isDetect], by simp⟩
    | ok t =>
      exact ⟨[Widget.textArea "Tesseract OCR Result" t], [Event.tesseractCall lc],
        by simp [emitE, emitW], by simp [emitE, emitW], by simp [isErrW],
        by simp [isDetect], by simp⟩

theorem azureBlock_ext (cfg : Config) (ora : Oracle) (s : FlowSt) :
    traceExt s (azureBlock cfg ora s).1 := by
  unfold azureBlock
  cases cfg.use_azure
  · exact traceExt_refl s
  · cases hres : get_azure_text cfg ora with
    | error e =>
      exact ⟨[], [Event.azureCall], by simp [emitE], by simp [emitE], by simp,
        by simp [isDetect], by simp⟩
    | ok t =>
      exact ⟨[Widget.textArea "Azure OCR Result" t], [Event.azureCall],
        by simp [emitE, emitW], by simp [emitE, emitW], by simp [isErrW],
        by simp [isDetect], by simp⟩

theorem googleBlock_ext (cfg : Config) (ora : Oracle) (s : FlowSt) :
    traceExt s (googleBlock cfg ora s).1 := by
  unfold googleBlock
  cases cfg.use_google
  · exact traceExt_refl s
  · cases hres : get_google_text cfg ora with
    | error e =>
      exact ⟨[], [Event.googleCall], by simp [emitE], by simp [emitE], by simp,
        by simp [isDetect], by simp⟩
    | ok t =>
      exact ⟨[Widget.textArea "Google OCR Result" t], [Event.googleCall],
        by simp [emitE, emitW], by simp [emitE, emitW], by simp [isErrW],
        by simp [isDetect], by simp⟩

theorem combinedBlock_ext (cfg : Config) (s : FlowSt) :
    traceExt s (combinedBlock cfg s).1 := by
  unfold combinedBlock
  by_cases hguard : (cfg.use_combined && !s.ocr_texts.isEmpty) = true
  · rw [if_pos hguard]
    have hne : s.ocr_texts ≠ [] := by
      intro habs
      rw [habs] at hguard
      simp at hguard
    cases hres : combine_ocr_results s.ocr_texts with
    | error e =>
      refine ⟨[], [Event.combineCall s.ocr_texts], by simp [emitE], by simp [emitE],
        by simp, by simp [isDetect], ?_⟩
      intro args hargs
      simp at hargs
      rw [hargs]
      exact hne
    | ok c =>
      refine ⟨[Widget.textArea "Combined OCR Result" c], [Event.combineCall s.ocr_texts],
        by simp [emitE, emitW], by simp [emitE, emitW], by simp [isErrW],
        by simp [isDetect], ?_⟩
      intro args hargs
      simp at hargs
      rw [hargs]
      exact hne
  · rw [if_neg hguard]
    exact traceExt_refl s

theorem accLine_ext (flag : Bool) (label var : String) (txt : Option String)
    (g : String) (s : FlowSt) : traceExt s (accLine flag label var txt g s).1 := by
  unfold accLine
  cases flag
  · exact traceExt_refl s
  · cases txt with
    | none => exact traceExt_refl s
    | some t =>
      exact ⟨[Widget.accuracy label (100 * Difflib.calculate_similarity t g)], [],
        by simp [emitW], by simp [emitW], by simp [isErrW], by simp, by simp⟩

theorem groundTruthBlock_ext (cfg : Config) (ora : Oracle) (s : FlowSt) :
    traceExt s (groundTruthBlock cfg ora s).1 := by
  unfold groundTruthBlock
  cases cfg.has_ground_truth
  · exact traceExt_refl s
  · cases hres : ora.decode_ground_truth with
    | error e => exact traceExt_refl s
    | ok g =>
      have hgtw : traceExt s (emitW s (Widget.textArea "Ground Truth Text" g)) :=
        ⟨[Widget.textArea "Ground Truth Text" g], [], by simp [emitW], by simp [emitW],
          by simp [isErrW], by simp, by simp⟩
      simp only
      refine traceExt_trans hgtw ?_
      refine andThen_ext (accLine_ext _ _ _ _ _ _) (fun s1 => ?_)
      refine andThen_ext (accLine_ext _ _ _ _ _ _) (fun s2 => ?_)
      exact andThen_ext (accLine_ext _ _ _ _ _ _) (fun s3 => accLine_ext _ _ _ _ _ _)

theorem processBody_ext (cfg : Config) (ora : Oracle) :
    traceExt (langBlock cfg ora).1 (processBody cfg ora).1 := by
  unfold processBody
  cases hl : langBlock cfg ora with
  | mk s res =>
    cases res with
    | error e => exact traceExt_refl s
    | ok lc =>
      refine andThen_ext (tessBlock_ext cfg ora lc s) (fun s1 => ?_)
      refine andThen_ext (azureBlock_ext cfg ora s1) (fun s2 => ?_)
      refine andThen_ext (googleBlock_ext cfg ora s2) (fun s3 => ?_)
      exact andThen_ext (combinedBlock_ext cfg s3) (fun s4 =>
        groundTruthBlock_ext cfg ora s4)

theorem langBlock_widgets (cfg : Config) (ora : Oracle) :
    (langBlock cfg ora).1.tr.widgets = [] := by
  unfold langBlock
  cases cfg.language_option
  · cases hres : ora.image_to_string "hin+eng" <;> simp [emitE, initSt]
  · simp [initSt]
  · simp [initSt]

theorem langBlock_no_combine (cfg : Config) (ora : Oracle) (args : List String) :
    Event.combineCall args ∉ (langBlock cfg ora).1.tr.events := by
  unfold langBlock
  cases cfg.language_option
  · cases hres : ora.image_to_string "hin+eng" <;> simp [emitE, initSt]
  · simp [initSt]
  · simp [initSt]

theorem langBlock_no_detect_explicit (cfg : Config) (ora : Oracle)
    (h : cfg.language_option ≠ LangOption.auto) :
    (langBlock cfg ora).1.tr.events = [] := by
  unfold langBlock
  cases hlo : cfg.language_option
  · exact absurd hlo h
  · simp [initSt]
  · simp [initSt]

theorem body_widgets_noErr (cfg : Config) (ora : Oracle) :
    ∀ w ∈ (processBody cfg ora).1.tr.widgets, isErrW w = false := by
  obtain ⟨ws, evs, hw, he, hnw, _, _⟩ := processBody_ext cfg ora
  intro w hmem
  rw [hw, langBlock_widgets] at hmem
  simp at hmem
  exact hnw w hmem

end OcrApp

/-! ## Derived run characterisations -/

namespace OcrApp

theorem accuracyWidgets_map (l : List (String × ℚ)) :
    List.filterMap (accProj ∘ fun p => Widget.accuracy p.1 p.2) l = l := by
  induction l with
  | nil => rfl
  | cons p l ih => simp [accProj, ih]

set_option maxHeartbeats 1000000 in
theorem run_accuracies (cfg : Config) (ora : Oracle) (tess : String → String)
    (az goo g : String)
    (htess : ∀ l, ora.image_to_string l = Except.ok (tess l))
    (haz : get_azure_text cfg ora = Except.ok az)
    (hgo : get_google_text cfg ora = Except.ok goo)
    (hdec : cfg.has_ground_truth = true → ora.decode_ground_truth = Except.ok g)
    (hcomb : cfg.use_combined = true →
      (cfg.use_tesseract || cfg.use_azure || cfg.use_google) = true) :
    accuracyWidgets (process cfg ora) =
      (if cfg.has_ground_truth then
        specAccuracies cfg (tess (specLangCode cfg ora tess)) az goo g
      else []) := by
  have hrun := run_spec cfg ora tess az goo g htess haz hgo hdec hcomb
  simp only [process, hrun]
  simp only [accuracyWidgets, specSt, List.filterMap_append,
    apply_ite (List.filterMap accProj)]
  simp [accProj, accuracyWidgets_map]

set_option maxHeartbeats 1000000 in
theorem run_backendNames (cfg : Config) (ora : Oracle) (tess : String → String)
    (az goo g : String)
    (htess : ∀ l, ora.image_to_string l = Except.ok (tess l))
    (haz : get_azure_text cfg ora = Except.ok az)
    (hgo : get_google_text cfg ora = Except.ok goo)
    (hdec : cfg.has_ground_truth = true → ora.decode_ground_truth = Except.ok g)
    (hcomb : cfg.use_combined = true →
      (cfg.use_tesseract || cfg.use_azure || cfg.use_google) = true) :
    backendNames (runEvents cfg ora) = selectedNames cfg := by
  have hrun := run_spec cfg ora tess az goo g htess haz hgo hdec hcomb
  simp only [runEvents, hrun]
  simp only [backendNames, specSt, selectedNames, List.filterMap_append,
    apply_ite (List.filterMap backendNameOf)]
  cases cfg.language_option <;>
    simp [backendNameOf]

theorem run_detect_free (cfg : Config) (ora : Oracle)
    (h : cfg.language_option ≠ LangOption.auto) :
    (runEvents cfg ora).filter isDetect = [] := by
  obtain ⟨ws, evs, hw, he, _, hnd, _⟩ := processBody_ext cfg ora
  unfold runEvents
  rw [he, langBlock_no_detect_explicit cfg ora h, List.nil_append,
    List.filter_eq_nil_iff]
  intro e hmem
  simp [hnd e hmem]

theorem backendNames_sub (evs : List Event) (n : String)
    (hn : n ∈ backendNames evs) :
    n = "tesseract" ∨ n = "azure" ∨ n = "google" := by
  rw [backendNames, List.mem_filterMap] at hn
  obtain ⟨e, _, he⟩ := hn
  cases e with
  | tesseractCall l =>
    simp [backendNameOf] at he
    exact Or.inl he.symm
  | azureCall =>
    simp [backendNameOf] at he
    exact Or.inr (Or.inl he.symm)
  | googleCall =>
    simp [backendNameOf] at he
    exact Or.inr (Or.inr he.symm)
  | pytessCall l => simp [backendNameOf] at he
  | detectAttempt t => simp [backendNameOf] at he
  | combineCall args => simp [backendNameOf] at he

end OcrApp

/-! ## Claim theorems -/

namespace OcrApp

/-- C4: every exception raised anywhere in the processing block —
language detection, a backend call, result combining, ground-truth
decoding or scoring — is caught by the single catch-all handler, which
appends exactly one `st.error` display after the output produced so
far; no exception propagates (the run always yields a plain widget
list) and nothing else is done in response: the displayed widgets are
the body's widgets (which never include an error display) plus, exactly
when the body raised, the one trailing error message. -/
theorem claim_C4 (cfg : Config) (ora : Oracle) :
    process cfg ora = (processBody cfg ora).1.tr.widgets ++
      (match (processBody cfg ora).2 with
        | Except.ok _ => []
        | Except.error e => [Widget.errorBox ("Error processing image: " ++ errMsg e)]) ∧
    (process cfg ora).filter isErrW =
      (match (processBody cfg ora).2 with
        | Except.ok _ => []
        | Except.error e => [Widget.errorBox ("Error processing image: " ++ errMsg e)]) := by
  have hnoerr := body_widgets_noErr cfg ora
  have hfilter : (processBody cfg ora).1.tr.widgets.filter isErrW = [] := by
    rw [List.filter_eq_nil_iff]
    intro w hw
    simp [hnoerr w hw]
  cases hb : processBody cfg ora with
  | mk s res =>
    rw [hb] at hfilter
    cases res with
    | ok u =>
      exact ⟨by simp [process, hb], by simp only [process, hb]; exact hfilter⟩
    | error e =>
      refine ⟨by simp [process, hb], ?_⟩
      simp only [process, hb, List.filter_append, hfilter, List.nil_append]
      simp [isErrW]

/-- C6: the call to `combine_ocr_results` in the main flow is guarded
by `use_combined and ocr_texts`, so its argument list is always
non-empty; on a non-empty list the `most_common(1)[0][0]` indexing
succeeds and returns an element of the input list whose multiplicity is
at least that of every other element, namely the first-encountered most
common element (the first entry of the counter's first-occurrence key
order whose count is maximal). -/
theorem claim_C6 :
    (∀ l : List String, l ≠ [] →
      ∃ r, combine_ocr_results l = Except.ok r ∧ r ∈ l ∧
        (∀ x ∈ l, l.count x ≤ l.count r) ∧
        (∃ ks1 ks2, counterKeys l = ks1 ++ r :: ks2 ∧
          ∀ z ∈ ks1, l.count z < l.count r)) ∧
    (∀ (cfg : Config) (ora : Oracle) (args : List String),
      Event.combineCall args ∈ runEvents cfg ora → args ≠ []) := by
  constructor
  · intro l h
    obtain ⟨r, hr, hmem, hmax, hfirst⟩ := mostCommon1_spec l h
    refine ⟨r, ?_, hmem, hmax, hfirst⟩
    unfold combine_ocr_results
    rw [hr]
  · intro cfg ora args hmem
    obtain ⟨ws, evs, hw, he, _, _, hnc⟩ := processBody_ext cfg ora
    unfold runEvents at hmem
    rw [he] at hmem
    rcases List.mem_append.1 hmem with h1 | h1
    · exact absurd h1 (langBlock_no_combine cfg ora args)
    · exact hnc args h1

/-- Witness for C6 at concrete inputs: the vote on `["a", "b", "b"]`
and a run (`cfgTessComb`) whose trace contains a combine call. -/
theorem claim_C6_witness :
    (∃ r, combine_ocr_results ["a", "b", "b"] = Except.ok r ∧ r ∈ ["a", "b", "b"] ∧
      (∀ x ∈ ["a", "b", "b"], List.count x ["a", "b", "b"] ≤ List.count r ["a", "b", "b"]) ∧
      (∃ ks1 ks2, counterKeys ["a", "b", "b"] = ks1 ++ r :: ks2 ∧
        ∀ z ∈ ks1, List.count z ["a", "b", "b"] < List.count r ["a", "b", "b"])) ∧
    ("txt" :: [] : List String) ≠ [] :=
  ⟨claim_C6.1 ["a", "b", "b"] (by decide),
   claim_C6.2 cfgTessComb oraEn ["txt"] (by decide)⟩

/-- C8: `detect_language` is total: it returns the detector's code when
`detect` succeeds and the string `"unknown"` when the detector raises
anything; being a plain `String`-valued function of the oracle, it
itself never raises. -/
theorem claim_C8 (ora : Oracle) (t : String) :
    (∃ c, ora.langdetect t = Except.ok c ∧ detect_language ora t = c) ∨
    (∃ e, ora.langdetect t = Except.error e ∧ detect_language ora t = "unknown") := by
  cases h : ora.langdetect t with
  | ok c => exact Or.inl ⟨c, rfl, by simp [detect_language, h]⟩
  | error e => exact Or.inr ⟨e, rfl, by simp [detect_language, h]⟩

end OcrApp

namespace MemeVideo

/-- C10 (spec-modelled: the meme-video application is not under
`src/`): the generator overlays the wrapped caption and the watermark
on every frame — each output frame is the overlay of the corresponding
input frame, with frame count preserved — and keeps the original audio
track. -/
theorem claim_C10 (width : Nat) (caption wm : String) (v : Video) :
    (generateMemeVideo width caption wm v).audio = v.audio ∧
    (generateMemeVideo width caption wm v).frames =
      v.frames.map (overlayFrame width caption wm) ∧
    (generateMemeVideo width caption wm v).frames.length = v.frames.length ∧
    (∀ f : Frame, (overlayFrame width caption wm f).base = f.base ∧
      (overlayFrame width caption wm f).overlays =
        f.overlays ++ [⟨wrapText width caption⟩, ⟨[wm]⟩]) :=
  ⟨rfl, rfl, by simp [generateMemeVideo], fun f => ⟨rfl, rfl⟩⟩

end MemeVideo

namespace OcrApp

/-- C5: under Automatic Detection the language code comes from a
preliminary `image_to_string` pass with `lang='hin+eng'` fed to the
detector, mapped by `map_language_code` (`"en"` to `"eng"`, `"hi"` to
`"hin"`, everything else — including `"unknown"` — to `"eng"`); under
the explicit English and Hindi options no detection attempt happens
anywhere in the run and the code is `"eng"` / `"hin"`. -/
theorem claim_C5 (cfg : Config) (ora : Oracle) (tess : String → String)
    (htess : ∀ l, ora.image_to_string l = Except.ok (tess l)) :
    (cfg.language_option = LangOption.auto →
      langBlock cfg ora =
        (emitE (emitE initSt (Event.pytessCall "hin+eng"))
          (Event.detectAttempt (tess "hin+eng")),
         Except.ok (map_language_code (detect_language ora (tess "hin+eng"))))) ∧
    (cfg.language_option = LangOption.english →
      langBlock cfg ora = (initSt, Except.ok "eng") ∧
      (runEvents cfg ora).filter isDetect = []) ∧
    (cfg.language_option = LangOption.hindi →
      langBlock cfg ora = (initSt, Except.ok "hin") ∧
      (runEvents cfg ora).filter isDetect = []) ∧
    map_language_code "en" = "eng" ∧
    map_language_code "hi" = "hin" ∧
    map_language_code "unknown" = "eng" ∧
    (∀ d, d ≠ "en" → d ≠ "hi" → map_language_code d = "eng") := by
  refine ⟨?_, ?_, ?_, by decide, by decide, by decide, ?_⟩
  · intro h
    simp [langBlock, h, htess]
  · intro h
    refine ⟨by simp [langBlock, h], run_detect_free cfg ora (by simp [h])⟩
  · intro h
    refine ⟨by simp [langBlock, h], run_detect_free cfg ora (by simp [h])⟩
  · intro d h1 h2
    simp [map_language_code, h1, h2]

/-- Witness for C5 at concrete inputs: an Automatic-Detection run, an
explicit-English run, and the default branch of the mapping. -/
theorem claim_C5_witness :
    (langBlock cfgAutoTess oraEn =
      (emitE (emitE initSt (Event.pytessCall "hin+eng")) (Event.detectAttempt "txt"),
       Except.ok (map_language_code (detect_language oraEn "txt")))) ∧
    (langBlock cfgThree oraEn = (initSt, Except.ok "eng") ∧
      (runEvents cfgThree oraEn).filter isDetect = []) ∧
    map_language_code "fr" = "eng" :=
  ⟨(claim_C5 cfgAutoTess oraEn (fun _ => "txt") (fun _ => rfl)).1 rfl,
   (claim_C5 cfgThree oraEn (fun _ => "txt") (fun _ => rfl)).2.1 rfl,
   (claim_C5 cfgThree oraEn (fun _ => "txt") (fun _ => rfl)).2.2.2.2.2.2 "fr"
     (by decide) (by decide)⟩

end OcrApp

namespace OcrApp

/-- Counterexample to C2: the detected language does not determine
which backend is invoked.  Two Automatic-Detection runs against the
same oracle detect the same language (`"en"`) yet invoke different
backends — the backend choice comes from the checkboxes alone. -/
theorem claim_C2_counterexample :
    (detectTexts (runEvents cfgAutoTess oraEn)).map (detect_language oraEn) = ["en"] ∧
    (detectTexts (runEvents cfgAutoAz oraEn)).map (detect_language oraEn) = ["en"] ∧
    backendNames (runEvents cfgAutoTess oraEn) = ["tesseract"] ∧
    backendNames (runEvents cfgAutoAz oraEn) = ["azure"] := by
  decide

/-- C2 as amended: when Automatic Detection is chosen, the language
detected from the image determines only the Tesseract language code
(the argument of the Tesseract invocation); the set of backends
invoked is exactly the checkbox selection, independent of the detected
language. -/
theorem claim_C2_amended (cfg : Config) (ora : Oracle) (tess : String → String)
    (az goo g : String)
    (htess : ∀ l, ora.image_to_string l = Except.ok (tess l))
    (haz : get_azure_text cfg ora = Except.ok az)
    (hgo : get_google_text cfg ora = Except.ok goo)
    (hdec : cfg.has_ground_truth = true → ora.decode_ground_truth = Except.ok g)
    (hcomb : cfg.use_combined = true →
      (cfg.use_tesseract || cfg.use_azure || cfg.use_google) = true)
    (hauto : cfg.language_option = LangOption.auto) :
    backendNames (runEvents cfg ora) = selectedNames cfg ∧
    (cfg.use_tesseract = true →
      Event.tesseractCall (map_language_code (detect_language ora (tess "hin+eng"))) ∈
        runEvents cfg ora) := by
  refine ⟨run_backendNames cfg ora tess az goo g htess haz hgo hdec hcomb, ?_⟩
  intro hut
  have hrun := run_spec cfg ora tess az goo g htess haz hgo hdec hcomb
  simp only [runEvents, hrun]
  simp [specSt, specLangCode, hauto, hut]

/-- Witness for the amended C2 at a concrete Automatic-Detection run. -/
theorem claim_C2_amended_witness :
    backendNames (runEvents cfgAutoTess oraEn) = selectedNames cfgAutoTess ∧
    Event.tesseractCall (map_language_code (detect_language oraEn "txt")) ∈
      runEvents cfgAutoTess oraEn :=
  have h := claim_C2_amended cfgAutoTess oraEn (fun _ => "txt")
    "Azure credentials are not set." "Google Cloud Vision API credentials are not set."
    "gttext" (fun _ => rfl) rfl rfl (fun _ => rfl) (fun hc => absurd hc (by decide)) rfl
  ⟨h.1, h.2 rfl⟩

/-- Counterexample to C3: a run does not route the image to exactly one
backend.  With all three checkboxes set, one run invokes all three
backends; with none set, a run invokes none. -/
theorem claim_C3_counterexample :
    backendNames (runEvents cfgThree oraEn) = ["tesseract", "azure", "google"] ∧
    backendNames (runEvents cfgNone oraEn) = [] ∧
    (backendNames (runEvents cfgThree oraEn)).length ≠ 1 := by
  decide

/-- C3 as amended: the uploaded image is routed to each of the
Tesseract, Azure and Google backends whose checkbox is selected — zero,
one, two or three of them — and to no other backend; exactly one
backend runs only when exactly one checkbox is set. -/
theorem claim_C3_amended (cfg : Config) (ora : Oracle) (tess : String → String)
    (az goo g : String)
    (htess : ∀ l, ora.image_to_string l = Except.ok (tess l))
    (haz : get_azure_text cfg ora = Except.ok az)
    (hgo : get_google_text cfg ora = Except.ok goo)
    (hdec : cfg.has_ground_truth = true → ora.decode_ground_truth = Except.ok g)
    (hcomb : cfg.use_combined = true →
      (cfg.use_tesseract || cfg.use_azure || cfg.use_google) = true) :
    backendNames (runEvents cfg ora) = selectedNames cfg ∧
    (backendNames (runEvents cfg ora)).length =
      (if cfg.use_tesseract then 1 else 0) + (if cfg.use_azure then 1 else 0) +
        (if cfg.use_google then 1 else 0) := by
  have h := run_backendNames cfg ora tess az goo g htess haz hgo hdec hcomb
  refine ⟨h, ?_⟩
  rw [h]
  cases hut : cfg.use_tesseract <;> cases hua : cfg.use_azure <;>
    cases hug : cfg.use_google <;> simp [selectedNames, hut, hua, hug]

/-- Witness for the amended C3 at a concrete three-backend run. -/
theorem claim_C3_amended_witness :
    backendNames (runEvents cfgThree oraEn) = selectedNames cfgThree ∧
    (backendNames (runEvents cfgThree oraEn)).length = 3 :=
  have h := claim_C3_amended cfgThree oraEn (fun _ => "txt")
    "Azure credentials are not set." "Google Cloud Vision API credentials are not set."
    "gttext" (fun _ => rfl) rfl rfl (fun _ => rfl) (fun hc => absurd hc (by decide))
  ⟨h.1, h.2⟩

/-- C9: the program has exactly the three backend callers — Tesseract,
Azure Computer Vision and Google Cloud Vision.  Any backend name
occurring in any run's trace is one of the three, and a run selecting
exactly one backend invokes exactly that backend and displays the text
it returned for the image as a string. -/
theorem claim_C9 (b : Backend) (ora : Oracle) (tess : String → String) (az goo : String)
    (htess : ∀ l, ora.image_to_string l = Except.ok (tess l))
    (haz2 : ora.azure_read = Except.ok az)
    (hgo2 : ora.google_read = Except.ok goo) :
    process (onlyCfg b) ora =
      [Widget.textArea (backendLabel b) (backendText tess az goo b)] ∧
    backendNames (runEvents (onlyCfg b) ora) = [backendName b] ∧
    (∀ (cfg2 : Config) (ora2 : Oracle) (n : String),
      n ∈ backendNames (runEvents cfg2 ora2) →
      n = "tesseract" ∨ n = "azure" ∨ n = "google") := by
  have haz : get_azure_text (onlyCfg b) ora = Except.ok az := by
    cases b <;> simp [get_azure_text, azureClientSet, onlyCfg, haz2]
  have hgo : get_google_text (onlyCfg b) ora = Except.ok goo := by
    cases b <;> simp [get_google_text, onlyCfg, hgo2]
  have hdec : (onlyCfg b).has_ground_truth = true →
      ora.decode_ground_truth = Except.ok "" := by
    cases b <;> intro h <;> simp [onlyCfg] at h
  have hcomb : (onlyCfg b).use_combined = true →
      ((onlyCfg b).use_tesseract || (onlyCfg b).use_azure || (onlyCfg b).use_google) = true := by
    cases b <;> intro h <;> simp [onlyCfg] at h
  have hrun := run_spec (onlyCfg b) ora tess az goo "" htess haz hgo hdec hcomb
  refine ⟨?_, ?_, fun cfg2 ora2 n hn => backendNames_sub _ n hn⟩
  · simp only [process, hrun]
    cases b <;>
      simp [specSt, onlyCfg, specLangCode, specTexts, backendLabel, backendText]
  · rw [run_backendNames (onlyCfg b) ora tess az goo "" htess haz hgo hdec hcomb]
    cases b <;> simp [selectedNames, onlyCfg, backendName]

/-- Witness for C9 at the concrete Google-only run. -/
theorem claim_C9_witness :
    process (onlyCfg Backend.google) oraEn =
      [Widget.textArea "Google OCR Result" "ggtext"] ∧
    backendNames (runEvents (onlyCfg Backend.google) oraEn) = ["google"] :=
  have h := claim_C9 Backend.google oraEn (fun _ => "txt") "aztext" "ggtext"
    (fun _ => rfl) rfl rfl
  ⟨h.1, h.2.1⟩

/-- C1: the similarity score is difflib's `SequenceMatcher` ratio —
`2 * M / (len(t) + len(g))` with `M` the total size of the matching
blocks, whenever the lengths are not both zero — and the accuracy
displays carry that ratio multiplied by 100; accuracy displays are
produced only when a ground-truth file is uploaded, and exactly one per
selected backend (plus one for the combined result when selected). -/
theorem claim_C1 (cfg : Config) (ora : Oracle) (tess : String → String)
    (az goo g : String)
    (htess : ∀ l, ora.image_to_string l = Except.ok (tess l))
    (haz : get_azure_text cfg ora = Except.ok az)
    (hgo : get_google_text cfg ora = Except.ok goo)
    (hdec : cfg.has_ground_truth = true → ora.decode_ground_truth = Except.ok g)
    (hcomb : cfg.use_combined = true →
      (cfg.use_tesseract || cfg.use_azure || cfg.use_google) = true) :
    accuracyWidgets (process cfg ora) =
      (if cfg.has_ground_truth then
        specAccuracies cfg (tess (specLangCode cfg ora tess)) az goo g
      else []) ∧
    (∀ t u : String, t.data.length + u.data.length ≠ 0 →
      Difflib.calculate_similarity t u =
        2 * (Difflib.matchesTotal t.data u.data : ℚ) /
          ((t.data.length : ℚ) + (u.data.length : ℚ))) := by
  refine ⟨run_accuracies cfg ora tess az goo g htess haz hgo hdec hcomb, ?_⟩
  intro t u h
  unfold Difflib.calculate_similarity Difflib.ratio Difflib.calcRatio
  rw [if_pos h]
  push_cast
  ring

/-- Witness for C1 at a concrete run with a ground truth uploaded, and
the ratio formula at concrete strings. -/
theorem claim_C1_witness :
    (accuracyWidgets (process cfgAcc oraEn) =
      (if cfgAcc.has_ground_truth then
        specAccuracies cfgAcc "txt" "aztext" "ggtext" "gttext"
      else [])) ∧
    ("ab".data.length + "cb".data.length ≠ 0 ∧
      Difflib.calculate_similarity "ab" "cb" =
        2 * (Difflib.matchesTotal "ab".data "cb".data : ℚ) /
          (("ab".data.length : ℚ) + ("cb".data.length : ℚ))) :=
  have h := claim_C1 cfgAcc oraEn (fun _ => "txt") "aztext" "ggtext" "gttext"
    (fun _ => rfl) rfl rfl (fun _ => rfl) (fun hc => absurd hc (by decide))
  ⟨h.1, by decide, h.2 "ab" "cb" (by decide)⟩

/-- C7: without Azure credentials `get_azure_text` returns the literal
sentinel `"Azure credentials are not set."` (and `get_google_text` the
analogous Google sentinel without Google credentials); when Azure is
selected the sentinel joins `ocr_texts`, is part of the combined vote's
argument list when Combined is selected, and is scored against the
ground truth exactly like recognized text. -/
theorem claim_C7 (cfg : Config) (ora : Oracle) (tess : String → String) (goo g : String)
    (htess : ∀ l, ora.image_to_string l = Except.ok (tess l))
    (hgo : get_google_text cfg ora = Except.ok goo)
    (hdec : cfg.has_ground_truth = true → ora.decode_ground_truth = Except.ok g)
    (hcomb : cfg.use_combined = true →
      (cfg.use_tesseract || cfg.use_azure || cfg.use_google) = true)
    (hcreds : azureClientSet cfg = false)
    (hua : cfg.use_azure = true) :
    get_azure_text cfg ora = Except.ok "Azure credentials are not set." ∧
    (∀ (cfg2 : Config) (ora2 : Oracle), cfg2.google_creds = false →
      get_google_text cfg2 ora2 =
        Except.ok "Google Cloud Vision API credentials are not set.") ∧
    "Azure credentials are not set." ∈ runOcrTexts cfg ora ∧
    (cfg.use_combined = true →
      Event.combineCall (runOcrTexts cfg ora) ∈ runEvents cfg ora) ∧
    (cfg.has_ground_truth = true →
      ("Azure", 100 * Difflib.calculate_similarity "Azure credentials are not set." g) ∈
        accuracyWidgets (process cfg ora)) := by
  have haz : get_azure_text cfg ora = Except.ok "Azure credentials are not set." := by
    simp [get_azure_text, hcreds]
  have hrun := run_spec cfg ora tess "Azure credentials are not set." goo g htess haz
    hgo hdec hcomb
  have htexts : runOcrTexts cfg ora =
      specTexts cfg (tess (specLangCode cfg ora tess))
        "Azure credentials are not set." goo := by
    simp [runOcrTexts, hrun, specSt]
  have hmemtxt : "Azure credentials are not set." ∈ runOcrTexts cfg ora := by
    rw [htexts]
    simp [specTexts, hua]
  refine ⟨haz, ?_, hmemtxt, ?_, ?_⟩
  · intro cfg2 ora2 h2
    simp [get_google_text, h2]
  · intro hc
    have hne : specTexts cfg (tess (specLangCode cfg ora tess))
        "Azure credentials are not set." goo ≠ [] := by
      refine List.ne_nil_of_mem (a := "Azure credentials are not set.") ?_
      simp [specTexts, hua]
    rw [htexts]
    simp only [runEvents, hrun]
    simp [specSt, hc, hne]
  · intro hg
    have hacc := run_accuracies cfg ora tess "Azure credentials are not set." goo g
      htess haz hgo hdec hcomb
    rw [hacc, if_pos hg]
    simp [specAccuracies, hua]

/-- Witness for C7 at a concrete Azure-without-credentials run with
Combined selected and a ground truth uploaded. -/
theorem claim_C7_witness :
    get_azure_text cfgAzNoCreds oraEn = Except.ok "Azure credentials are not set." ∧
    "Azure credentials are not set." ∈ runOcrTexts cfgAzNoCreds oraEn ∧
    Event.combineCall (runOcrTexts cfgAzNoCreds oraEn) ∈ runEvents cfgAzNoCreds oraEn ∧
    ("Azure", 100 * Difflib.calculate_similarity "Azure credentials are not set." "gttext") ∈
      accuracyWidgets (process cfgAzNoCreds oraEn) :=
  have h := claim_C7 cfgAzNoCreds oraEn (fun _ => "txt")
    "Google Cloud Vision API credentials are not set." "gttext"
    (fun _ => rfl) rfl (fun _ => rfl) (fun _ => rfl) rfl rfl
  ⟨h.1, h.2.2.1, h.2.2.2.1 rfl, h.2.2.2.2 rfl⟩

end OcrApp

/-! ## `find_longest_match` stays inside its region, and the
`get_matching_blocks` fuel is ample -/

namespace Difflib

theorem BestInv.mono {alo blo bhi b1 b2 : Nat} {m : MBlock} (h : b1 ≤ b2)
    (hm : BestInv alo blo bhi b1 m) : BestInv alo blo bhi b2 m := by
  obtain ⟨h0, h1⟩ := hm
  refine ⟨h0, fun hz => ?_⟩
  obtain ⟨k1, k2, k3, k4⟩ := h1 hz
  exact ⟨k1, k2, by omega, k4⟩

theorem dpGetPrev_bound (blo bhi s : Nat) (f : Nat → Nat) (hf : J2Inv blo bhi s f)
    (j : Nat) (hblo : blo ≤ j) :
    dpGetPrev f j + 1 ≤ j + 1 - blo ∧ dpGetPrev f j + 1 ≤ s + 1 := by
  cases j with
  | zero =>
    simp only [dpGetPrev]
    omega
  | succ j2 =>
    simp only [dpGetPrev]
    by_cases h : f j2 = 0
    · rw [h]
      omega
    · obtain ⟨hb1, hb2, hb3, hb4⟩ := hf j2 h
      omega

theorem flmInner_inv (alo blo bhi iIdx : Nat) (halo : alo ≤ iIdx) (j2len : Nat → Nat)
    (hj2 : J2Inv blo bhi (iIdx - alo) j2len) :
    ∀ (js : List Nat) (newj2len : Nat → Nat) (best : MBlock),
      J2Inv blo bhi (iIdx - alo + 1) newj2len →
      BestInv alo blo bhi (iIdx + 1) best →
      J2Inv blo bhi (iIdx - alo + 1)
        (flmInner blo bhi iIdx j2len js newj2len best).1 ∧
      BestInv alo blo bhi (iIdx + 1)
        (flmInner blo bhi iIdx j2len js newj2len best).2 := by
  intro js
  induction js with
  | nil =>
    intro newj2len best h1 h2
    exact ⟨h1, h2⟩
  | cons j js ih =>
    intro newj2len best h1 h2
    simp only [flmInner]
    by_cases hlt : j < blo
    · rw [if_pos hlt]
      exact ih newj2len best h1 h2
    · rw [if_neg hlt]
      by_cases hge : bhi ≤ j
      · rw [if_pos hge]
        exact ⟨h1, h2⟩
      · rw [if_neg hge]
        have hbj : blo ≤ j := by omega
        have hjb : j < bhi := by omega
        obtain ⟨hk1, hk2⟩ := dpGetPrev_bound blo bhi (iIdx - alo) j2len hj2 j hbj
        apply ih
        · intro x hx
          dsimp only at hx ⊢
          by_cases hxj : x = j
          · simp only [hxj, if_true, eq_self_iff_true] at hx ⊢
            exact ⟨hbj, hjb, hk1, by omega⟩
          · simp only [if_neg hxj] at hx ⊢
            exact h1 x hx
        · by_cases hbk : best.size < dpGetPrev j2len j + 1
          · rw [if_pos hbk]
            refine ⟨fun h0 => absurd h0 (by simp), fun _ => ?_⟩
            dsimp only
            refine ⟨by omega, by omega, by omega, by omega⟩
          · rw [if_neg hbk]
            exact h2

theorem flmOuter_inv (a b : List Char) (alo blo bhi : Nat) :
    ∀ (n i0 : Nat) (j2len : Nat → Nat) (best : MBlock),
      alo ≤ i0 →
      J2Inv blo bhi (i0 - alo) j2len →
      BestInv alo blo bhi i0 best →
      BestInv alo blo bhi (i0 + n)
        (flmOuter a b blo bhi (List.range' i0 n) j2len best) := by
  intro n
  induction n with
  | zero =>
    intro i0 j2len best h1 h2 h3
    simpa [flmOuter] using h3
  | succ n ih =>
    intro i0 j2len best h1 h2 h3
    have hrange : List.range' i0 (n + 1) = i0 :: List.range' (i0 + 1) n := by
      simp [List.range'_succ]
    rw [hrange]
    simp only [flmOuter]
    have hb2 : BestInv alo blo bhi (i0 + 1) best := BestInv.mono (by omega) h3
    have hnew0 : J2Inv blo bhi (i0 - alo + 1) (fun _ => 0) := by
      intro x hx
      exact absurd rfl hx
    obtain ⟨hj2a, hba⟩ := flmInner_inv alo blo bhi i0 h1 j2len h2
      (b2j b (lget a i0)) (fun _ => 0) best hnew0 hb2
    have heq : i0 + 1 - alo = i0 - alo + 1 := by omega
    have hj2b : J2Inv blo bhi (i0 + 1 - alo)
        (flmInner blo bhi i0 j2len (b2j b (lget a i0)) (fun _ => 0) best).1 := by
      rw [heq]
      exact hj2a
    have hres := ih (i0 + 1)
      (flmInner blo bhi i0 j2len (b2j b (lget a i0)) (fun _ => 0) best).1
      (flmInner blo bhi i0 j2len (b2j b (lget a i0)) (fun _ => 0) best).2
      (by omega) hj2b hba
    have heq2 : i0 + 1 + n = i0 + (n + 1) := by omega
    rw [heq2] at hres
    exact hres

theorem extLo_inv (a b : List Char) (alo blo bhi B : Nat) (junkB : Char → Bool) :
    ∀ (fuel : Nat) (m : MBlock), BestInv alo blo bhi B m →
      BestInv alo blo bhi B (extLo a b alo blo junkB fuel m) := by
  intro fuel
  induction fuel with
  | zero =>
    intro m h
    exact h
  | succ f ih =>
    intro m h
    simp only [extLo]
    by_cases hc : alo < m.a ∧ blo < m.b ∧ junkB (lget b (m.b - 1)) = false ∧
        lget a (m.a - 1) = lget b (m.b - 1)
    · rw [if_pos hc]
      apply ih
      obtain ⟨h0, h1⟩ := h
      refine ⟨fun hz => absurd hz (by simp), fun _ => ?_⟩
      by_cases hz : m.size = 0
      · obtain ⟨ha, hb⟩ := h0 hz
        exact absurd hc.1 (by omega)
      · obtain ⟨k1, k2, k3, k4⟩ := h1 hz
        dsimp only
        refine ⟨by omega, by omega, by omega, by omega⟩
    · rw [if_neg hc]
      exact h

theorem extHi_inv (a b : List Char) (alo ahi blo bhi : Nat) (junkB : Char → Bool) :
    ∀ (fuel : Nat) (m : MBlock), BestInv alo blo bhi ahi m →
      BestInv alo blo bhi ahi (extHi a b ahi bhi junkB fuel m) := by
  intro fuel
  induction fuel with
  | zero =>
    intro m h
    exact h
  | succ f ih =>
    intro m h
    simp only [extHi]
    by_cases hc : m.a + m.size < ahi ∧ m.b + m.size < bhi ∧
        junkB (lget b (m.b + m.size)) = false ∧
        lget a (m.a + m.size) = lget b (m.b + m.size)
    · rw [if_pos hc]
      apply ih
      obtain ⟨h0, h1⟩ := h
      refine ⟨fun hz => absurd hz (by simp), fun _ => ?_⟩
      by_cases hz : m.size = 0
      · obtain ⟨ha, hb⟩ := h0 hz
        dsimp only
        refine ⟨by omega, by omega, by omega, by omega⟩
      · obtain ⟨k1, k2, k3, k4⟩ := h1 hz
        dsimp only
        refine ⟨by omega, by omega, by omega, by omega⟩
    · rw [if_neg hc]
      exact h

theorem extLoJunk_none (a b : List Char) (alo blo : Nat) :
    ∀ (fuel : Nat) (m : MBlock), extLoJunk a b alo blo bjunkF fuel m = m := by
  intro fuel m
  cases fuel with
  | zero => rfl
  | succ f =>
    simp [extLoJunk, bjunkF]

theorem extHiJunk_none (a b : List Char) (ahi bhi : Nat) :
    ∀ (fuel : Nat) (m : MBlock), extHiJunk a b ahi bhi bjunkF fuel m = m := by
  intro fuel m
  cases fuel with
  | zero => rfl
  | succ f =>
    simp [extHiJunk, bjunkF]

theorem find_longest_match_bounds (a b : List Char) (alo ahi blo bhi : Nat)
    (halo : alo ≤ ahi) :
    BestInv alo blo bhi ahi (find_longest_match a b alo ahi blo bhi) := by
  unfold find_longest_match
  simp only [extLoJunk_none, extHiJunk_none]
  have h0 : BestInv alo blo bhi alo ⟨alo, blo, 0⟩ :=
    ⟨fun _ => ⟨rfl, rfl⟩, fun h => absurd rfl h⟩
  have hz : J2Inv blo bhi (alo - alo) (fun _ => 0) := fun x hx => absurd rfl hx
  have h1 := flmOuter_inv a b alo blo bhi (ahi - alo) alo (fun _ => 0) ⟨alo, blo, 0⟩
    (le_refl alo) hz h0
  have heq : alo + (ahi - alo) = ahi := by omega
  rw [heq] at h1
  exact extHi_inv a b alo ahi blo bhi bjunkF _ _ (extLo_inv a b alo blo bhi ahi bjunkF _ _ h1)

theorem gmbAux_fuel (a b : List Char) :
    ∀ (f1 f2 alo ahi blo bhi : Nat), alo ≤ ahi →
      ahi - alo < f1 → ahi - alo < f2 →
      gmbAux a b f1 alo ahi blo bhi = gmbAux a b f2 alo ahi blo bhi := by
  intro f1
  induction f1 with
  | zero =>
    intro f2 alo ahi blo bhi hao h1 h2
    exact absurd h1 (by omega)
  | succ n ih =>
    intro f2 alo ahi blo bhi hao h1 h2
    cases f2 with
    | zero => exact absurd h2 (by omega)
    | succ m =>
      simp only [gmbAux]
      obtain ⟨hb0, hb1⟩ := find_longest_match_bounds a b alo ahi blo bhi hao
      by_cases hz : (find_longest_match a b alo ahi blo bhi).size ≠ 0
      · rw [if_pos hz, if_pos hz]
        obtain ⟨k1, k2, k3, k4⟩ := hb1 hz
        have hL : (if alo < (find_longest_match a b alo ahi blo bhi).a ∧
              blo < (find_longest_match a b alo ahi blo bhi).b then
            gmbAux a b n alo (find_longest_match a b alo ahi blo bhi).a blo
              (find_longest_match a b alo ahi blo bhi).b
          else []) =
            (if alo < (find_longest_match a b alo ahi blo bhi).a ∧
                blo < (find_longest_match a b alo ahi blo bhi).b then
              gmbAux a b m alo (find_longest_match a b alo ahi blo bhi).a blo
                (find_longest_match a b alo ahi blo bhi).b
            else []) := by
          by_cases hc : alo < (find_longest_match a b alo ahi blo bhi).a ∧
              blo < (find_longest_match a b alo ahi blo bhi).b
          · rw [if_pos hc, if_pos hc]
            exact ih m alo (find_longest_match a b alo ahi blo bhi).a blo
              (find_longest_match a b alo ahi blo bhi).b (by omega) (by omega) (by omega)
          · rw [if_neg hc, if_neg hc]
        have hR : (if (find_longest_match a b alo ahi blo bhi).a +
              (find_longest_match a b alo ahi blo bhi).size < ahi ∧
              (find_longest_match a b alo ahi blo bhi).b +
              (find_longest_match a b alo ahi blo bhi).size < bhi then
            gmbAux a b n ((find_longest_match a b alo ahi blo bhi).a +
              (find_longest_match a b alo ahi blo bhi).size) ahi
              ((find_longest_match a b alo ahi blo bhi).b +
              (find_longest_match a b alo ahi blo bhi).size) bhi
          else []) =
            (if (find_longest_match a b alo ahi blo bhi).a +
                (find_longest_match a b alo ahi blo bhi).size < ahi ∧
                (find_longest_match a b alo ahi blo bhi).b +
                (find_longest_match a b alo ahi blo bhi).size < bhi then
              gmbAux a b m ((find_longest_match a b alo ahi blo bhi).a +
                (find_longest_match a b alo ahi blo bhi).size) ahi
                ((find_longest_match a b alo ahi blo bhi).b +
                (find_longest_match a b alo ahi blo bhi).size) bhi
            else []) := by
          by_cases hc : (find_longest_match a b alo ahi blo bhi).a +
              (find_longest_match a b alo ahi blo bhi).size < ahi ∧
              (find_longest_match a b alo ahi blo bhi).b +
              (find_longest_match a b alo ahi blo bhi).size < bhi
          · rw [if_pos hc, if_pos hc]
            exact ih m ((find_longest_match a b alo ahi blo bhi).a +
              (find_longest_match a b alo ahi blo bhi).size) ahi
              ((find_longest_match a b alo ahi blo bhi).b +
              (find_longest_match a b alo ahi blo bhi).size) bhi
              (by omega) (by omega) (by omega)
          · rw [if_neg hc, if_neg hc]
        rw [hL, hR]
      · rw [if_neg hz, if_neg hz]

/-- The fuel `a.length + 1` of `get_matching_blocks` is ample: any fuel
above the initial region's extent yields the same blocks. -/
theorem get_matching_blocks_fuel_ample (a b : List Char) (f : Nat)
    (hf : a.length < f) :
    gmbAux a b f 0 a.length 0 b.length =
      gmbAux a b (a.length + 1) 0 a.length 0 b.length :=
  gmbAux_fuel a b f (a.length + 1) 0 a.length 0 b.length (by omega) (by omega) (by omega)

end Difflib
